import Mathlib

/-!
# Verification of the Daedalus renderer wallet layer

Shallow embedding of the reviewed renderer-process code:
`source/renderer/app/stores/WalletsStore.js`, the `ItemsDropdown`
search helper, and the confirm-button logic of
`WalletSendAssetsConfirmationDialog.js`.

MobX observable fields of `WalletsStore` are embedded as a record
`WalletsState`; each store action becomes a state transformer.
Asynchronous backend requests are embedded by passing the request
outcome as an explicit argument; effects that only dispatch other
actions (dialog closing, router triggers) are not part of the state.
-/

namespace Daedalus

/-! ## Domain records

`Wallet` mirrors the fields of the `Wallet` domain record that the
reviewed store code reads: `id`, `isLegacy`, `isNotResponding`,
`isHardwareWallet` and `amount`. -/

structure Wallet where
  id : String
  isLegacy : Bool
  isNotResponding : Bool
  isHardwareWallet : Bool
  amount : Int
  deriving Repr, DecidableEq

/-- Modelled from the spec: the `Request` wrapper
(`stores/lib/LocalizedRequest`) is outside the reviewed sources; the
store reads its `result`, `wasExecuted` and `isExecuting` fields, so
those are the model. `result = none` is the JS `null` before the first
execution. -/
structure RequestState where
  result : Option (List Wallet)
  wasExecuted : Bool
  isExecuting : Bool
  deriving Repr, DecidableEq

/-- Modelled from the spec: `routes-config`/`utils/routing` are outside
the reviewed sources. The store only distinguishes the add-wallet page
(`ROUTES.WALLETS.ADD`), a wallet page matching
`ROUTES.WALLETS.ROOT/:id(*page)`, the wallets root route, and any other
route, so routes are embedded as this inductive. -/
inductive Route where
  | addWallet
  | walletPage (id : String)
  | root
  | other
  deriving Repr, DecidableEq

/-- The observable fields of `WalletsStore` that the verified claims
touch, together with the current route (read from `stores.app`) and the
hardware-wallet connection data (read from `stores.hardwareWallets`,
keyed by wallet id, holding the extended public key hex). -/
structure WalletsState where
  walletsRequest : RequestState
  active : Option Wallet
  activeValue : Option Int
  activePublicKey : Option String
  lastGeneratedAddress : Option String
  pollingBlocked : Bool
  createWalletStep : Option Int
  createWalletShowAbortConfirmation : Bool
  restoreWalletStep : Option Int
  restoreWalletShowAbortConfirmation : Bool
  certificateStep : Option Int
  restoredWallet : Option Wallet
  walletKind : Option String
  walletKindDaedalus : Option String
  walletKindYoroi : Option String
  walletKindHardware : Option String
  mnemonics : List String
  walletName : String
  spendingPassword : String
  repeatPassword : String
  currentRoute : Route
  hwConnectionData : List (String × String)
  deriving Repr, DecidableEq

/-! ## Computed getters of `WalletsStore` -/

/-- `get allWallets` : non-legacy wallets of the backend result. -/
def allWallets (s : WalletsState) : List Wallet :=
  match s.walletsRequest.result with
  | some r => r.filter (fun w => !w.isLegacy)
  | none => []

/-- `get allLegacyWallets` : legacy wallets of the backend result. -/
def allLegacyWallets (s : WalletsState) : List Wallet :=
  match s.walletsRequest.result with
  | some r => r.filter (fun w => w.isLegacy)
  | none => []

/-- `get all` : `[...this.allWallets, ...this.allLegacyWallets]`. -/
def all (s : WalletsState) : List Wallet :=
  allWallets s ++ allLegacyWallets s

/-- `get hasAnyWallets` : result non-null, executed and non-empty. -/
def hasAnyWallets (s : WalletsState) : Bool :=
  match s.walletsRequest.result with
  | none => false
  | some r => s.walletsRequest.wasExecuted && decide (0 < r.length)

/-- `get hasAnyLoaded` : `this.all.length > 0`. -/
def hasAnyLoaded (s : WalletsState) : Bool :=
  decide (0 < (all s).length)

/-- `get hasActiveWallet` : `!!this.active`. -/
def hasActiveWallet (s : WalletsState) : Bool :=
  s.active.isSome

/-! ## Route matching helpers -/

/-- Modelled from the spec: `matchRoute(ROUTES.WALLETS.ADD, route)`. -/
def isWalletAddPageRoute : Route → Bool
  | Route.addWallet => true
  | _ => false

/-- Modelled from the spec: the wallet-id route match
`matchRoute(ROUTES.WALLETS.ROOT/:id(*page), route)` — the wallet id
segment of the route, when the route points below the wallets root (the
add-wallet route also matches this pattern, with the literal segment
`add`, but the store checks the add page first). -/
def matchWalletIdRoute : Route → Option String
  | Route.addWallet => some "add"
  | Route.walletPage id => some id
  | _ => none

/-- `get _canRedirectToWallet` : route is the wallets root route or the
add-wallet route. -/
def canRedirectToWallet : Route → Bool
  | Route.root => true
  | Route.addWallet => true
  | _ => false

/-! ## Active wallet selection -/

/-- Modelled from the spec: `formattedWalletAmount` lives in
`utils/formatters`, outside the reviewed sources; the verified claims
only require that `activeValue` is set or unset, never its value. -/
def formattedWalletAmount (amount : Int) : Int :=
  amount

/-- Modelled from the spec: `bech32EncodePublicKey` lives in
`utils/hardwareWalletUtils`, outside the reviewed sources; the verified
claims only require that `activePublicKey` is set or unset, never its
value. -/
def bech32EncodePublicKey (xpub : String) : String :=
  xpub

/-- Lookup of `hardwareWalletsConnectionData` by wallet id. -/
def lookupConnData (data : List (String × String)) (id : String) :
    Option String :=
  (data.find? (fun kv => kv.1 == id)).map (fun kv => kv.2)

/-- `_unsetActiveWallet` : clears the active wallet, its value, its
public key and the last generated address. -/
def unsetActiveWallet (s : WalletsState) : WalletsState :=
  { s with active := none, activeValue := none, activePublicKey := none,
           lastGeneratedAddress := none }

/-- `_setActiveWallet({ walletId })` : when wallets are loaded, replaces
the active wallet by the wallet of the list with the given id (or by
`null` when absent) if the id changed, updating `activeValue` and
`activePublicKey`; when only the contents of the already-active wallet
changed, copies the new contents into it (`this.active.update(...)`).
The `isNotResponding` redirect only dispatches a router action. -/
def setActiveWallet (s : WalletsState) (walletId : String) : WalletsState :=
  if hasAnyWallets s then
    let activeWalletId := s.active.map (fun w => w.id)
    let newActiveWallet := (all s).find? (fun w => w.id == walletId)
    if activeWalletId ≠ some walletId then
      let s1 := { s with active := newActiveWallet,
                         lastGeneratedAddress := none }
      match newActiveWallet with
      | some w =>
          let s2 := { s1 with
            activeValue := some (formattedWalletAmount w.amount) }
          if w.isHardwareWallet then
            match lookupConnData s.hwConnectionData w.id with
            | some xpub =>
                { s2 with
                  activePublicKey := some (bech32EncodePublicKey xpub) }
            | none => s2
          else
            { s2 with activePublicKey := none }
      | none => s1
    else
      match s.active, newActiveWallet with
      | some a, some w => if a ≠ w then { s with active := some w } else s
      | _, _ => s
  else s

/-- `_updateActiveWalletOnRouteChanges` : derives the active wallet from
the current route; router triggers (`goToWalletRoute`) only dispatch
actions and do not change the embedded state. -/
def updateActiveWalletOnRouteChanges (s : WalletsState) : WalletsState :=
  let hasAnyWalletLoaded := hasAnyLoaded s
  if isWalletAddPageRoute s.currentRoute || !hasAnyWalletLoaded then
    unsetActiveWallet s
  else
    match matchWalletIdRoute s.currentRoute with
    | some rid =>
        match (all s).find? (fun w => w.id == rid) with
        | some w => setActiveWallet s w.id
        | none =>
            match all s with
            | w0 :: _ => setActiveWallet s w0.id
            | [] => s
    | none =>
        if canRedirectToWallet s.currentRoute then
          if !(hasActiveWallet s) && hasAnyWalletLoaded then
            match all s with
            | w0 :: _ => setActiveWallet s w0.id
            | [] => s
          else s
        else s

/-! ## Polling pause / resume and refresh -/

/-- `_pausePolling` : `if (this.walletsRequest.isExecuting) await
this.walletsRequest;` then sets `_pollingBlocked = true`. The returned
boolean records whether the call awaited the in-flight wallets
request. -/
def pausePolling (s : WalletsState) : WalletsState × Bool :=
  ({ s with pollingBlocked := true }, s.walletsRequest.isExecuting)

/-- `_resumePolling` : sets `_pollingBlocked = false`. -/
def resumePolling (s : WalletsState) : WalletsState :=
  { s with pollingBlocked := false }

/-- `refreshWalletsData` : returns immediately when `_pollingBlocked`;
otherwise, when connected, executes the wallets request (whose outcome
`response` is passed explicitly), stores the result, and re-sets the
active wallet. Address/transaction sub-store refreshes are outside the
embedded state. -/
def refreshWalletsData (s : WalletsState) (isConnected : Bool)
    (response : Option (List Wallet)) : WalletsState :=
  if s.pollingBlocked then s
  else if isConnected then
    let s1 := { s with walletsRequest :=
      { result := response, wasExecuted := true, isExecuting := false } }
    match response with
    | none => s1
    | some _ =>
        match s1.active with
        | some a => setActiveWallet s1 a.id
        | none => s1
  else s

/-! ## Wizard step operations -/

/-- `_createWalletBegin` : step to 0, abort confirmation off. -/
def createWalletBegin (s : WalletsState) : WalletsState :=
  { s with createWalletStep := some 0,
           createWalletShowAbortConfirmation := false }

/-- `_createWalletChangeStep(isBack)` : steps `createWalletStep` by ±1
from its current value (`null` read as 0 via `|| 0`). -/
def createWalletChangeStep (s : WalletsState) (isBack : Bool) :
    WalletsState :=
  let cur := s.createWalletStep.getD 0
  { s with createWalletStep := some (if isBack then cur - 1 else cur + 1),
           createWalletShowAbortConfirmation := false }

/-- `_createWalletClose` : resets `createWalletStep` to `null`. -/
def createWalletClose (s : WalletsState) : WalletsState :=
  { s with createWalletStep := none,
           createWalletShowAbortConfirmation := false }

/-- `_restoreWalletBegin` : step to 0, abort confirmation off. -/
def restoreWalletBegin (s : WalletsState) : WalletsState :=
  { s with restoreWalletStep := some 0,
           restoreWalletShowAbortConfirmation := false }

/-- `_restoreWalletResetData` : resets the whole restore-wizard state,
including `restoreWalletStep` back to `null`. -/
def restoreWalletResetData (s : WalletsState) : WalletsState :=
  { s with restoreWalletStep := none,
           restoreWalletShowAbortConfirmation := false,
           restoredWallet := none,
           walletKind := none,
           walletKindDaedalus := none,
           walletKindYoroi := none,
           walletKindHardware := none,
           mnemonics := [],
           walletName := "",
           spendingPassword := "",
           repeatPassword := "" }

/-- `_restoreWalletChangeStep(isBack)` : reads the current step (`|| 0`),
resets the restore requests (request error state is outside the embedded
state), resets the wizard data when the step was `null`, then steps by
±1 from the previously read value. -/
def restoreWalletChangeStep (s : WalletsState) (isBack : Bool) :
    WalletsState :=
  let cur := s.restoreWalletStep.getD 0
  let s1 := if s.restoreWalletStep = none then restoreWalletResetData s
            else s
  { s1 with restoreWalletStep := some (if isBack then cur - 1 else cur + 1),
            restoreWalletShowAbortConfirmation := false }

/-- `_restore` : pauses polling, then on a successful restore request
(`outcome = some wallet`) stores the restored wallet and sets
`restoreWalletStep` directly to 3; on failure resumes polling. -/
def restoreWallet (s : WalletsState) (outcome : Option Wallet) :
    WalletsState :=
  let s1 := (pausePolling s).1
  match outcome with
  | some w => { s1 with restoredWallet := some w,
                        restoreWalletStep := some 3 }
  | none => resumePolling s1

/-- `_updateCertificateStep(isBack)` : steps `certificateStep` by ±1
from its current value (`|| 0`). -/
def updateCertificateStep (s : WalletsState) (isBack : Bool) :
    WalletsState :=
  let cur := s.certificateStep.getD 0
  { s with certificateStep := some (if isBack then cur - 1 else cur + 1) }

/-- `_resetCertificateData` : resets `certificateStep` to `null` (called
by `_closeCertificateGeneration`). -/
def resetCertificateData (s : WalletsState) : WalletsState :=
  { s with certificateStep := none }

/-! ## Wallet list patching -/

/-- `_patchWalletRequestWithNewWallet` : adds the wallet to the request
result only when its id is not already present; legacy wallets are
pushed to the end, non-legacy wallets are spliced in immediately before
the first legacy wallet (or pushed to the end when there is none). -/
def patchWalletRequestWithNewWallet (result : List Wallet) (w : Wallet) :
    List Wallet :=
  if result.any (fun x => x.id == w.id) then result
  else if w.isLegacy then result ++ [w]
  else
    match result.findIdx? (fun x => x.isLegacy) with
    | some i => result.take i ++ w :: result.drop i
    | none => result ++ [w]

/-- The list shape maintained by the store: all non-legacy wallets
precede all legacy wallets. -/
def legacyPartitioned : List Wallet → Bool
  | [] => true
  | w :: ws =>
      if w.isLegacy then ws.all (fun x => x.isLegacy)
      else legacyPartitioned ws

/-! ## Sending money -/

/-- One asset entry read by `_sendMoney` (`policyId`, `assetName`). -/
structure WalletSummaryAsset where
  policyId : String
  assetName : String
  deriving Repr, DecidableEq

/-- One entry of the formatted asset list passed to the backend;
`quantity = none` stands for JS `NaN`. -/
structure FormattedAsset where
  policy_id : String
  asset_name : String
  quantity : Option Int
  deriving Repr, DecidableEq

/-- The payload of the `createTransaction` backend request issued by
`_sendMoney`; `amount = none` stands for JS `NaN`. -/
structure CreateTransactionRequest where
  address : String
  amount : Option Int
  passphrase : String
  walletId : String
  isLegacy : Bool
  assets : Option (List FormattedAsset)
  deriving Repr, DecidableEq

/-- JS `parseInt(s, 10)` : skips leading whitespace, reads an optional
sign and then the leading decimal digits; `none` stands for `NaN`. -/
def parseInt10 (s : String) : Option Int :=
  let cs := s.toList.dropWhile (fun c => c.isWhitespace)
  let signAndRest : Int × List Char :=
    match cs with
    | '-' :: t => (-1, t)
    | '+' :: t => (1, t)
    | t => (1, t)
  let digits := signAndRest.2.takeWhile (fun c => c.isDigit)
  if digits.isEmpty then none
  else
    some (signAndRest.1 *
      Int.ofNat (digits.foldl (fun acc c => acc * 10 + (c.toNat - 48)) 0))

/-- The asset formatting of `_sendMoney` : `null` when no assets were
given (or the list is empty), otherwise one record per asset with
`quantity = get(assetsAmounts, index, 0)` where `assetsAmounts` is the
element-wise `parseInt` of the given amount strings. -/
def formatSendAssets (assets : Option (List WalletSummaryAsset))
    (assetsAmountsStr : Option (List String)) :
    Option (List FormattedAsset) :=
  let assetsAmounts := assetsAmountsStr.map (fun l => l.map parseInt10)
  match assets with
  | none => none
  | some l =>
      if l.isEmpty then none
      else
        some (l.enum.map (fun p =>
          { policy_id := p.2.policyId,
            asset_name := p.2.assetName,
            quantity :=
              match assetsAmounts with
              | some aa =>
                  match aa.get? p.1 with
                  | some v => v
                  | none => some 0
              | none => some 0 }))

/-- The arguments of the `sendMoney` action. -/
structure SendMoneyParams where
  receiver : String
  amount : String
  passphrase : String
  assets : Option (List WalletSummaryAsset)
  assetsAmounts : Option (List String)
  deriving Repr, DecidableEq

/-- `_sendMoney` : throws when there is no active wallet; otherwise
issues exactly one `createTransaction` backend request, returned here as
the `ok` payload. The steps after the request (wallets refresh, dialog
close, request reset, route change) construct no transaction and issue
no further `createTransaction` request. -/
def sendMoney (s : WalletsState) (p : SendMoneyParams) :
    Except String CreateTransactionRequest :=
  let formattedAssets := formatSendAssets p.assets p.assetsAmounts
  match s.active with
  | none => Except.error "Active wallet required before sending."
  | some wallet =>
      Except.ok
        { address := p.receiver,
          amount := parseInt10 p.amount,
          passphrase := p.passphrase,
          walletId := wallet.id,
          isLegacy := wallet.isLegacy,
          assets := formattedAssets }

/-! ## The `ItemsDropdown` search helper -/

/-- One entry of the dropdown's `options` array; the search helper reads
its `label`, `detail` and `value`. -/
structure ItemDropdownOption where
  label : String
  detail : String
  value : String
  deriving Repr, DecidableEq

/-- Literal substring search on character lists: `true` iff `pat` occurs
contiguously inside `hay`. -/
def charsContain (pat : List Char) : List Char → Bool
  | [] => pat.isEmpty
  | c :: t => pat.isPrefixOf (c :: t) || charsContain pat t

/-- `new RegExp(escapeRegExp(searchValue), 'i').test(str)` : thanks to
`escapeRegExp` the pattern is literal, so the test is a case-insensitive
literal substring check (case folding is done character-wise). -/
def regexTestCI (searchValue str : String) : Bool :=
  charsContain (searchValue.toList.map Char.toLower)
    (str.toList.map Char.toLower)

/-- `onSearchItemsDropdown` from the `ItemsDropdown` component: keeps the
options whose label, detail or value matches the search value. -/
def onSearchItemsDropdown (searchValue : String)
    (options : List ItemDropdownOption) : List ItemDropdownOption :=
  options.filter (fun option =>
    regexTestCI searchValue option.label ||
    regexTestCI searchValue option.detail ||
    regexTestCI searchValue option.value)

/-! ## The send-confirmation dialog -/

/-- Modelled from the spec: `HwDeviceStatuses` lives in `domains/Wallet`,
outside the reviewed sources; the dialog only compares the status against
`VERIFYING_TRANSACTION_SUCCEEDED`. -/
inductive HwDeviceStatus where
  | connecting
  | launchingCardanoApp
  | exportingPublicKey
  | verifyingTransaction
  | verifyingTransactionFailed
  | verifyingTransactionSucceeded
  deriving Repr, DecidableEq

/-- The `disabled` expression of the confirm (Send) action in
`WalletSendAssetsConfirmationDialog.render`. -/
def confirmButtonDisabled (isHardwareWallet passphraseIsValid : Bool)
    (hwDeviceStatus : HwDeviceStatus)
    (areTermsAccepted isFlight : Bool) : Bool :=
  (!isHardwareWallet && !passphraseIsValid) ||
  (isHardwareWallet &&
    !(hwDeviceStatus = HwDeviceStatus.verifyingTransactionSucceeded)) ||
  (!areTermsAccepted && isFlight)

/-! ## Claim-side predicates and concrete fixtures -/

/-- The step transitions allowed by the linear-counter reading of the
wizards: leave the step unchanged, reset it to `null`, or move by
exactly one from the current value (`null` read as 0). -/
def stepClaimTransition (before after : Option Int) : Prop :=
  after = before ∨ after = none ∨
  after = some (before.getD 0 + 1) ∨ after = some (before.getD 0 - 1)

instance (before after : Option Int) :
    Decidable (stepClaimTransition before after) := by
  unfold stepClaimTransition; infer_instance

/-- Spec-side description of the non-legacy insertion position: the new
wallet goes immediately before the first legacy wallet, or to the end
when there is none. -/
def insertBeforeFirstLegacy (w : Wallet) : List Wallet → List Wallet
  | [] => [w]
  | x :: xs =>
      if x.isLegacy then w :: x :: xs
      else x :: insertBeforeFirstLegacy w xs

/-- A non-legacy software wallet used in witnesses. -/
def wA : Wallet := ⟨"wA", false, false, false, 100⟩

/-- A legacy wallet used in witnesses. -/
def wB : Wallet := ⟨"wB", true, false, false, 50⟩

/-- A wallet sharing `wA`'s id but with different contents. -/
def wAdup : Wallet := ⟨"wA", false, false, false, 999⟩

/-- A fresh non-legacy wallet used in witnesses. -/
def wC : Wallet := ⟨"wC", false, false, false, 7⟩

/-- Builder for concrete store states used by witnesses and
counterexamples. -/
def exampleState (result : Option (List Wallet))
    (wasExecuted isExecuting : Bool) (active : Option Wallet)
    (route : Route) (blocked : Bool) (restoreStep : Option Int) :
    WalletsState :=
  { walletsRequest :=
      { result := result, wasExecuted := wasExecuted,
        isExecuting := isExecuting }
    active := active, activeValue := none, activePublicKey := none
    lastGeneratedAddress := none, pollingBlocked := blocked
    createWalletStep := none, createWalletShowAbortConfirmation := false
    restoreWalletStep := restoreStep
    restoreWalletShowAbortConfirmation := false
    certificateStep := none, restoredWallet := none
    walletKind := none, walletKindDaedalus := none
    walletKindYoroi := none, walletKindHardware := none
    mnemonics := [], walletName := "", spendingPassword := ""
    repeatPassword := "", currentRoute := route, hwConnectionData := [] }

/-- State at the first restore-wizard step, used against C3. -/
def restoreStepZeroState : WalletsState :=
  exampleState (some [wA, wB]) true false none Route.other false (some 0)

/-- State whose wallets request is executing, used against C9. -/
def executingRequestState : WalletsState :=
  exampleState (some [wA, wB]) true true none Route.other false none

/-- State whose backend result lists the legacy wallet first, used
against C4. -/
def legacyFirstState : WalletsState :=
  exampleState (some [wB, wA]) true false none Route.other false none

/-- State with polling blocked, used for the C2 witness. -/
def blockedState : WalletsState :=
  exampleState (some [wA, wB]) true false none Route.other true none

/-- State on the route of wallet `wA`, used for the C1 witness. -/
def routeWAState : WalletsState :=
  exampleState (some [wA, wB]) true false none (Route.walletPage "wA")
    false none

/-- State with `wA` active, used for the C5 witness. -/
def activeWAState : WalletsState :=
  exampleState (some [wA, wB]) true false (some wA) Route.other false none

/-! ## Helper lemmas -/

theorem charsContain_nil (hay : List Char) : charsContain [] hay = true := by
  cases hay <;> simp [charsContain, List.isPrefixOf]

theorem regexTestCI_empty (str : String) : regexTestCI "" str = true :=
  charsContain_nil _

theorem legacyPartitioned_of_allLegacy (l : List Wallet)
    (h : l.all (fun x => x.isLegacy) = true) :
    legacyPartitioned l = true := by
  cases l with
  | nil => rfl
  | cons x xs =>
      rw [List.all_cons, Bool.and_eq_true] at h
      simp [legacyPartitioned, h.1, h.2]

theorem legacyPartitioned_append_split (A B : List Wallet)
    (hA : A.all (fun x => !x.isLegacy) = true)
    (hB : B.all (fun x => x.isLegacy) = true) :
    legacyPartitioned (A ++ B) = true := by
  induction A with
  | nil => simpa using legacyPartitioned_of_allLegacy B hB
  | cons a as ih =>
      rw [List.all_cons, Bool.and_eq_true] at hA
      have ha : a.isLegacy = false := by simpa using hA.1
      simpa [legacyPartitioned, ha] using ih hA.2

theorem legacyPartitioned_append_legacy (l : List Wallet) (w : Wallet)
    (hw : w.isLegacy = true) (h : legacyPartitioned l = true) :
    legacyPartitioned (l ++ [w]) = true := by
  induction l with
  | nil => simp [legacyPartitioned, hw]
  | cons x xs ih =>
      by_cases hx : x.isLegacy = true
      · simp only [legacyPartitioned, hx, if_true] at h
        simp [legacyPartitioned, hx, List.all_append, h, hw]
      · simp only [legacyPartitioned, hx, if_false] at h
        simpa [legacyPartitioned, hx] using ih h

theorem legacyPartitioned_insertNonLegacy (l : List Wallet) (w : Wallet)
    (hw : w.isLegacy = false) (h : legacyPartitioned l = true) :
    legacyPartitioned (insertBeforeFirstLegacy w l) = true := by
  induction l with
  | nil => simp [insertBeforeFirstLegacy, legacyPartitioned, hw]
  | cons x xs ih =>
      by_cases hx : x.isLegacy = true
      · simp only [insertBeforeFirstLegacy, hx, if_true]
        simpa [legacyPartitioned, hw] using h
      · simp only [insertBeforeFirstLegacy, hx, if_false]
        simp only [legacyPartitioned, hx, if_false] at h
        simpa [legacyPartitioned, hx] using ih h

theorem splice_eq_insertBeforeFirstLegacy (l : List Wallet) (w : Wallet) :
    (match l.findIdx? (fun x => x.isLegacy) with
     | some i => l.take i ++ w :: l.drop i
     | none => l ++ [w]) = insertBeforeFirstLegacy w l := by
  induction l with
  | nil => simp [insertBeforeFirstLegacy]
  | cons x xs ih =>
      by_cases hx : x.isLegacy = true
      · simp [List.findIdx?_cons, hx, insertBeforeFirstLegacy]
      · rw [List.findIdx?_cons, if_neg (by simpa using hx),
          List.findIdx?_succ]
        cases hfind : xs.findIdx? (fun x => x.isLegacy) with
        | none =>
            rw [hfind] at ih
            simp only [hfind, Option.map_none, insertBeforeFirstLegacy,
              hx, if_false, List.cons_append]
            simpa using ih
        | some i =>
            rw [hfind] at ih
            simp only [hfind, Option.map_some, insertBeforeFirstLegacy,
              hx, if_false, List.take_succ_cons, List.drop_succ_cons,
              List.cons_append]
            simpa using ih

theorem patch_fresh_nonLegacy (result : List Wallet) (w : Wallet)
    (hfresh : result.any (fun x => x.id == w.id) = false)
    (hw : w.isLegacy = false) :
    patchWalletRequestWithNewWallet result w
      = insertBeforeFirstLegacy w result := by
  rw [patchWalletRequestWithNewWallet, if_neg (by simp [hfresh]),
    if_neg (by simp [hw])]
  exact splice_eq_insertBeforeFirstLegacy result w

theorem all_eq_filter_split (s : WalletsState) (r : List Wallet)
    (h : s.walletsRequest.result = some r) :
    all s = r.filter (fun x => !x.isLegacy)
      ++ r.filter (fun x => x.isLegacy) := by
  simp [all, allWallets, allLegacyWallets, h]

theorem legacyPartitioned_all (s : WalletsState) :
    legacyPartitioned (all s) = true := by
  cases h : s.walletsRequest.result with
  | none => simp [all, allWallets, allLegacyWallets, h, legacyPartitioned]
  | some r =>
      rw [all_eq_filter_split s r h]
      refine legacyPartitioned_append_split _ _ ?_ ?_ <;>
        simp [List.all_eq_true, List.mem_filter]

theorem all_of_result_none (s : WalletsState)
    (h : s.walletsRequest.result = none) : all s = [] := by
  simp [all, allWallets, allLegacyWallets, h]

theorem hasAnyWallets_of_loaded (s : WalletsState)
    (hexec : s.walletsRequest.wasExecuted = true)
    (hne : all s ≠ []) : hasAnyWallets s = true := by
  cases hres : s.walletsRequest.result with
  | none => exact absurd (all_of_result_none s hres) hne
  | some r =>
      cases r with
      | nil =>
          exact absurd
            (by simp [all, allWallets, allLegacyWallets, hres]) hne
      | cons a as => simp [hasAnyWallets, hres, hexec]

theorem setActiveWallet_active_of_found (s : WalletsState) (wid : String)
    (w : Wallet) (hw : hasAnyWallets s = true)
    (hfind : (all s).find? (fun x => x.id == wid) = some w) :
    (setActiveWallet s wid).active = some w := by
  rw [setActiveWallet, if_pos hw]
  simp only [hfind]
  by_cases hch : s.active.map (fun x => x.id) = some wid
  · rw [if_neg (by simpa using hch)]
    obtain ⟨a, ha, haid⟩ := Option.map_eq_some'.mp hch
    rw [ha]
    by_cases haw : a = w
    · subst haw
      simp [ha]
    · simp [haw]
  · rw [if_pos (by simpa using hch)]
    split
    · split <;> rfl
    · rfl

/-! ## Claim theorems -/

/-- C1: the active wallet is derived from the route: on the add-wallet
page, or when no wallets are loaded, the active wallet, `activeValue`
and `activePublicKey` are unset; when the route names a wallet id
present in the loaded list, that wallet becomes active; when the route
names an id absent from the list while at least one wallet is loaded,
the first wallet of the list becomes active (the last two cases assume
the wallets request has executed, which is what having loaded the list
means). -/
theorem updateActiveWallet_routeDerived_spec (s : WalletsState) :
    ((isWalletAddPageRoute s.currentRoute = true ∨ all s = []) →
        (updateActiveWalletOnRouteChanges s).active = none
        ∧ (updateActiveWalletOnRouteChanges s).activeValue = none
        ∧ (updateActiveWalletOnRouteChanges s).activePublicKey = none)
    ∧ (∀ rid w, s.currentRoute = Route.walletPage rid →
        s.walletsRequest.wasExecuted = true →
        (all s).find? (fun x => x.id == rid) = some w →
        (updateActiveWalletOnRouteChanges s).active = some w)
    ∧ (∀ rid w0 rest, s.currentRoute = Route.walletPage rid →
        s.walletsRequest.wasExecuted = true →
        (all s).find? (fun x => x.id == rid) = none →
        all s = w0 :: rest →
        (updateActiveWalletOnRouteChanges s).active = some w0) := by
  refine ⟨fun h => ?_, fun rid w hroute hexec hfind => ?_,
    fun rid w0 rest hroute hexec hfind hall => ?_⟩
  · have hcond :
        (isWalletAddPageRoute s.currentRoute || !hasAnyLoaded s) = true := by
      rcases h with h | h
      · simp [h]
      · simp [hasAnyLoaded, h]
    simp [updateActiveWalletOnRouteChanges, hcond, unsetActiveWallet]
  · have hne : all s ≠ [] := by
      intro h0
      rw [h0] at hfind
      simp at hfind
    have hload : hasAnyLoaded s = true := by
      simp [hasAnyLoaded, List.length_pos, hne]
    have hid : w.id = rid := by
      simpa using List.find?_some hfind
    have hwallets : hasAnyWallets s = true :=
      hasAnyWallets_of_loaded s hexec hne
    have hstep :
        updateActiveWalletOnRouteChanges s = setActiveWallet s w.id := by
      simp [updateActiveWalletOnRouteChanges, hroute, isWalletAddPageRoute,
        matchWalletIdRoute, hload, hfind]
    rw [hstep]
    exact setActiveWallet_active_of_found s w.id w hwallets
      (by rw [hid]; exact hfind)
  · have hne : all s ≠ [] := by
      rw [hall]
      simp
    have hload : hasAnyLoaded s = true := by
      simp [hasAnyLoaded, List.length_pos, hne]
    have hwallets : hasAnyWallets s = true :=
      hasAnyWallets_of_loaded s hexec hne
    have hfind0 : (all s).find? (fun x => x.id == w0.id) = some w0 := by
      rw [hall]
      simp [List.find?]
    have hfind2 : (w0 :: rest).find? (fun x => x.id == rid) = none := by
      rw [← hall]
      exact hfind
    have hstep :
        updateActiveWalletOnRouteChanges s = setActiveWallet s w0.id := by
      simp [updateActiveWalletOnRouteChanges, hroute, isWalletAddPageRoute,
        matchWalletIdRoute, hload, hall, hfind2]
    rw [hstep]
    exact setActiveWallet_active_of_found s w0.id w0 hwallets hfind0

/-- C1 witness: on the route of wallet `wA` with `[wA, wB]` loaded, the
update makes `wA` active. -/
theorem updateActiveWallet_routeDerived_spec_witness :
    (updateActiveWalletOnRouteChanges routeWAState).active = some wA :=
  (updateActiveWallet_routeDerived_spec routeWAState).2.1 "wA" wA rfl rfl
    (by decide)

/-- C7: `onSearchItemsDropdown` returns exactly those options whose
label, detail or value contains the search value as a case-insensitive
literal substring (the pattern is regex-escaped in the source, so the
test is a literal one), preserving the relative order of the input
options; the empty search value keeps every option. -/
theorem onSearchItemsDropdown_spec (searchValue : String)
    (options : List ItemDropdownOption) :
    (∀ o, o ∈ onSearchItemsDropdown searchValue options ↔
        o ∈ options ∧
          (regexTestCI searchValue o.label = true ∨
           regexTestCI searchValue o.detail = true ∨
           regexTestCI searchValue o.value = true))
    ∧ (onSearchItemsDropdown searchValue options).Sublist options
    ∧ (searchValue = "" →
        onSearchItemsDropdown searchValue options = options) := by
  refine ⟨fun o => ?_, List.filter_sublist _, fun h => ?_⟩
  · simp [onSearchItemsDropdown, List.mem_filter, or_assoc]
  · subst h
    unfold onSearchItemsDropdown
    exact List.filter_eq_self.mpr fun o _ => by simp [regexTestCI_empty]

/-- C7 witness: the empty search value keeps every option. -/
theorem onSearchItemsDropdown_spec_witness :
    onSearchItemsDropdown "" [⟨"a", "b", "c"⟩] = [⟨"a", "b", "c"⟩] :=
  (onSearchItemsDropdown_spec "" [⟨"a", "b", "c"⟩]).2.2 rfl

/-- C8: the confirm (Send) button is disabled whenever the wallet is a
software wallet with an invalid passphrase field, or a hardware wallet
whose device status is not `VERIFYING_TRANSACTION_SUCCEEDED`, or the
build is a flight candidate and the irreversibility terms are not
accepted. -/
theorem confirmButtonDisabled_spec
    (isHardwareWallet passphraseIsValid : Bool)
    (hwDeviceStatus : HwDeviceStatus) (areTermsAccepted isFlight : Bool)
    (h : (isHardwareWallet = false ∧ passphraseIsValid = false) ∨
         (isHardwareWallet = true ∧
           hwDeviceStatus ≠ HwDeviceStatus.verifyingTransactionSucceeded) ∨
         (isFlight = true ∧ areTermsAccepted = false)) :
    confirmButtonDisabled isHardwareWallet passphraseIsValid hwDeviceStatus
      areTermsAccepted isFlight = true := by
  rcases h with ⟨h1, h2⟩ | ⟨h1, h2⟩ | ⟨h1, h2⟩ <;>
    simp [confirmButtonDisabled, h1, h2]

/-- C8 witness: software wallet with invalid passphrase at a concrete
input. -/
theorem confirmButtonDisabled_spec_witness :
    confirmButtonDisabled false false
      HwDeviceStatus.verifyingTransactionSucceeded true false = true :=
  confirmButtonDisabled_spec false false
    HwDeviceStatus.verifyingTransactionSucceeded true false
    (Or.inl ⟨rfl, rfl⟩)

/-- C2: `_pausePolling` sets `_pollingBlocked` to `true`,
`_resumePolling` sets it to `false`, and while `_pollingBlocked` holds
`refreshWalletsData` returns without modifying any store state. -/
theorem pollingPauseResume_spec (s : WalletsState) (isConnected : Bool)
    (response : Option (List Wallet)) :
    (pausePolling s).1.pollingBlocked = true
    ∧ (resumePolling s).pollingBlocked = false
    ∧ (s.pollingBlocked = true →
        refreshWalletsData s isConnected response = s) := by
  refine ⟨rfl, rfl, fun h => ?_⟩
  simp [refreshWalletsData, h]

/-- C2 witness: a blocked refresh leaves a concrete state unchanged. -/
theorem pollingPauseResume_spec_witness :
    refreshWalletsData blockedState true (some []) = blockedState :=
  (pollingPauseResume_spec blockedState true (some [])).2.2 rfl

/-- C3 counterexample: from the first restore-wizard step, a successful
`_restore` sets `restoreWalletStep` straight to 3, which neither leaves
the step, resets it to `null`, nor moves it by exactly one. -/
theorem restoreStep_nonAdjacent_counterexample :
    restoreStepZeroState.restoreWalletStep = some 0
    ∧ (restoreWallet restoreStepZeroState (some wA)).restoreWalletStep
        = some 3
    ∧ ¬ stepClaimTransition
        restoreStepZeroState.restoreWalletStep
        ((restoreWallet restoreStepZeroState
            (some wA)).restoreWalletStep) := by
  refine ⟨rfl, rfl, ?_⟩
  decide

/-- C3 (amended): the step-change operations move their wizard step by
exactly one from its current value (`null` read as 0, `+1` forward, `-1`
back); the begin operations set it to 0; the close/reset operations set
it back to `null`; and a successful `_restore` sets `restoreWalletStep`
directly to 3 regardless of the current value (a failed one leaves
it). -/
theorem wizardStep_transitions_spec (s : WalletsState) (isBack : Bool)
    (w : Wallet) :
    (createWalletChangeStep s isBack).createWalletStep
        = some (if isBack then s.createWalletStep.getD 0 - 1
                else s.createWalletStep.getD 0 + 1)
    ∧ (restoreWalletChangeStep s isBack).restoreWalletStep
        = some (if isBack then s.restoreWalletStep.getD 0 - 1
                else s.restoreWalletStep.getD 0 + 1)
    ∧ (updateCertificateStep s isBack).certificateStep
        = some (if isBack then s.certificateStep.getD 0 - 1
                else s.certificateStep.getD 0 + 1)
    ∧ (createWalletBegin s).createWalletStep = some 0
    ∧ (restoreWalletBegin s).restoreWalletStep = some 0
    ∧ (createWalletClose s).createWalletStep = none
    ∧ (restoreWalletResetData s).restoreWalletStep = none
    ∧ (resetCertificateData s).certificateStep = none
    ∧ (restoreWallet s (some w)).restoreWalletStep = some 3
    ∧ (restoreWallet s none).restoreWalletStep = s.restoreWalletStep :=
  ⟨rfl, rfl, rfl, rfl, rfl, rfl, rfl, rfl, rfl, rfl⟩

/-- C5: `_sendMoney` throws when no active wallet exists, before issuing
any request; with an active wallet its transaction-related effect is the
single `createTransaction` request with address `receiver`, amount
`parseInt(amount, 10)`, the passphrase, the active wallet's id and
legacy flag and the formatted asset list. -/
theorem sendMoney_delegation_spec (s : WalletsState)
    (p : SendMoneyParams) :
    (∀ w, s.active = some w →
        sendMoney s p = Except.ok
          { address := p.receiver,
            amount := parseInt10 p.amount,
            passphrase := p.passphrase,
            walletId := w.id,
            isLegacy := w.isLegacy,
            assets := formatSendAssets p.assets p.assetsAmounts })
    ∧ (s.active = none →
        sendMoney s p = Except.error
          "Active wallet required before sending.") := by
  constructor
  · intro w hw
    simp [sendMoney, hw]
  · intro h
    simp [sendMoney, h]

/-- C5 witness at a concrete active wallet and parameters. -/
theorem sendMoney_delegation_spec_witness :
    sendMoney activeWAState ⟨"addr", "33", "pw", none, none⟩
      = Except.ok
          { address := "addr", amount := some 33, passphrase := "pw",
            walletId := "wA", isLegacy := false, assets := none } := by
  rw [(sendMoney_delegation_spec activeWAState
        ⟨"addr", "33", "pw", none, none⟩).1 wA rfl]
  rfl

/-- C4 counterexample: the store does impose local constraints on the
wallet list: with the backend result `[wB, wA]` (legacy wallet first)
the `all` getter returns `[wA, wB]`, reordering the backend response;
and `_patchWalletRequestWithNewWallet` refuses to add a wallet whose id
is already present, even though the wallet itself is not in the list. -/
theorem walletList_localConstraints_counterexample :
    legacyFirstState.walletsRequest.result = some [wB, wA]
    ∧ all legacyFirstState = [wA, wB]
    ∧ [wA, wB] ≠ [wB, wA]
    ∧ patchWalletRequestWithNewWallet [wA] wAdup = [wA]
    ∧ wAdup ∉ [wA] := by
  refine ⟨rfl, rfl, by decide, by decide, by decide⟩

/-- C4 (amended): the wallet records mirror the backend response except
for the list constraints the store itself enforces: the `all` getter
presents all non-legacy wallets before all legacy ones (each side in
backend-result order), so the exposed list is always partitioned, and
`_patchWalletRequestWithNewWallet` enforces id-uniqueness by dropping a
wallet whose id is already present. -/
theorem walletList_localConstraints_spec (s : WalletsState)
    (r result : List Wallet) (w : Wallet) :
    (s.walletsRequest.result = some r →
        all s = r.filter (fun x => !x.isLegacy)
          ++ r.filter (fun x => x.isLegacy))
    ∧ legacyPartitioned (all s) = true
    ∧ (result.any (fun x => x.id == w.id) = true →
        patchWalletRequestWithNewWallet result w = result) := by
  refine ⟨fun h => all_eq_filter_split s r h, legacyPartitioned_all s,
    fun h => ?_⟩
  rw [patchWalletRequestWithNewWallet, if_pos h]

/-- C4 (amended) witness at concrete inputs. -/
theorem walletList_localConstraints_spec_witness :
    all legacyFirstState
      = [wB, wA].filter (fun x => !x.isLegacy)
        ++ [wB, wA].filter (fun x => x.isLegacy)
    ∧ patchWalletRequestWithNewWallet [wA] wAdup = [wA] :=
  ⟨(walletList_localConstraints_spec legacyFirstState [wB, wA] [wA]
      wAdup).1 rfl,
   (walletList_localConstraints_spec legacyFirstState [wB, wA] [wA]
      wAdup).2.2 (by decide)⟩

/-- C6: `_patchWalletRequestWithNewWallet` never inserts a wallet whose
id already occurs; it appends a legacy wallet at the end and inserts a
non-legacy wallet immediately before the first legacy wallet (appending
when none exists); it preserves the invariant that non-legacy wallets
precede legacy ones; and the `all` getter returns all non-legacy wallets
followed by all legacy wallets, each subsequence in backend-result
order. -/
theorem patchWallet_ordering_spec (result : List Wallet) (w : Wallet)
    (s : WalletsState) (r : List Wallet) :
    (result.any (fun x => x.id == w.id) = true →
        patchWalletRequestWithNewWallet result w = result)
    ∧ (result.any (fun x => x.id == w.id) = false → w.isLegacy = true →
        patchWalletRequestWithNewWallet result w = result ++ [w])
    ∧ (result.any (fun x => x.id == w.id) = false → w.isLegacy = false →
        patchWalletRequestWithNewWallet result w
          = insertBeforeFirstLegacy w result)
    ∧ (legacyPartitioned result = true →
        legacyPartitioned (patchWalletRequestWithNewWallet result w)
          = true)
    ∧ (s.walletsRequest.result = some r →
        all s = r.filter (fun x => !x.isLegacy)
            ++ r.filter (fun x => x.isLegacy)
          ∧ (r.filter (fun x => !x.isLegacy)).Sublist r
          ∧ (r.filter (fun x => x.isLegacy)).Sublist r) := by
  refine ⟨fun h => ?_, fun h1 h2 => ?_, patch_fresh_nonLegacy result w,
    fun hpart => ?_, fun h => ⟨all_eq_filter_split s r h,
      List.filter_sublist r, List.filter_sublist r⟩⟩
  · rw [patchWalletRequestWithNewWallet, if_pos h]
  · rw [patchWalletRequestWithNewWallet, if_neg (by simp [h1]),
      if_pos h2]
  · by_cases hdup : result.any (fun x => x.id == w.id) = true
    · rwa [patchWalletRequestWithNewWallet, if_pos hdup]
    · have hfresh : result.any (fun x => x.id == w.id) = false := by
        simpa using hdup
      by_cases hw : w.isLegacy = true
      · rw [patchWalletRequestWithNewWallet, if_neg (by simp [hfresh]),
          if_pos hw]
        exact legacyPartitioned_append_legacy result w hw hpart
      · have hw2 : w.isLegacy = false := by simpa using hw
        rw [patch_fresh_nonLegacy result w hfresh hw2]
        exact legacyPartitioned_insertNonLegacy result w hw2 hpart

/-- C6 witness: inserting a fresh non-legacy wallet into `[wA, wB]`
lands immediately before the legacy wallet `wB`. -/
theorem patchWallet_ordering_spec_witness :
    patchWalletRequestWithNewWallet [wA, wB] wC
      = insertBeforeFirstLegacy wC [wA, wB]
    ∧ patchWalletRequestWithNewWallet [wA, wB] wC = [wA, wC, wB] :=
  ⟨(patchWallet_ordering_spec [wA, wB] wC legacyFirstState []).2.2.1
      (by decide) (by decide),
   by
    rw [(patchWallet_ordering_spec [wA, wB] wC legacyFirstState
        []).2.2.1 (by decide) (by decide)]
    decide⟩

/-- C9 counterexample: `_pausePolling` waits on the in-flight wallets
request (`if (this.walletsRequest.isExecuting) await this.walletsRequest`),
so one operation does order itself after another in-flight operation. -/
theorem pausePolling_awaits_counterexample :
    executingRequestState.walletsRequest.isExecuting = true
    ∧ (pausePolling executingRequestState).2 = true :=
  ⟨rfl, rfl⟩

/-- C9 (amended): the one synchronization point in the store is
`_pausePolling`, which awaits the wallets request exactly when one is
executing and then blocks polling; nothing else in the embedded store
waits on an in-flight operation. -/
theorem pausePolling_sync_spec (s : WalletsState) :
    (pausePolling s).2 = s.walletsRequest.isExecuting
    ∧ (pausePolling s).1 = { s with pollingBlocked := true } :=
  ⟨rfl, rfl⟩

end Daedalus
